import Mathlib

/-!
Verification of the elasticstore replication engine.

Shallow embedding of the two source files:
  * `src/util/FirestoreHandler.ts` (`FirestoreCollectionHandler`): the
    filter/include/exclude/transform record pipeline, the per-parent
    subscription registry, and the added/modified/removed dispatch into
    the Elasticsearch sink;
  * `src/util/SearchHandler.ts` (`SearchHandler`): the query bridge that
    processes request records from a control collection, validates them,
    re-keys search hits, writes responses, and periodically sweeps old
    response records.

JavaScript values are modelled by `JSVal` (dates as an own constructor,
since `new Date()` objects drive the cleanup sweep); documents are
association lists from field names to `JSVal`.
-/

/-- Model of a JavaScript value as it occurs in this program: primitives,
`Date` objects, and plain objects as association lists. -/
inductive JSVal where
  | undefined
  | null
  | bool (b : Bool)
  | num (n : Int)
  | str (s : String)
  | date (t : Int)
  | obj (fields : List (String × JSVal))

/-- A document payload: a JS object's fields, in insertion order. -/
abbrev Doc := List (String × JSVal)

/-- JavaScript truthiness (NaN is not representable in the `Int` model). -/
def truthy : JSVal → Bool
  | .undefined => false
  | .null => false
  | .bool b => b
  | .num n => n != 0
  | .str s => s != ""
  | .date _ => true
  | .obj _ => true

/-- Field lookup on an object value; `none` for non-objects or a missing key. -/
def lookupJS : JSVal → String → Option JSVal
  | .obj fs, k => fs.lookup k
  | _, _ => none

/-- JavaScript property access `v[k]` for `v` neither `null` nor `undefined`
(those two throw and are handled at each access site): a missing key and any
primitive receiver yield `undefined`. -/
def propOf (v : JSVal) (k : String) : JSVal :=
  (lookupJS v k).getD .undefined

/-- JavaScript coercion of a value to a property key (used by `temp[hit._id]`). -/
def jsKeyOfVal : JSVal → String
  | .undefined => "undefined"
  | .null => "null"
  | .bool b => toString b
  | .num n => toString n
  | .str s => s
  | .date t => "Date(" ++ toString t ++ ")"
  | .obj _ => "[object Object]"

/-- JS object property assignment `m[k] = v`: overwrite in place if the key
exists, otherwise append. -/
def setAssoc {α : Type} (m : List (String × α)) (k : String) (v : α) : List (String × α) :=
  if m.any (fun kv => kv.1 == k) then
    m.map (fun kv => if kv.1 == k then (k, v) else kv)
  else
    m ++ [(k, v)]

/-- The kind of a Firestore document change (`change.type`). -/
inductive ChangeKind where
  | added
  | modified
  | removed
deriving DecidableEq

/-- One entry of `snap.docChanges()`: its kind, the document id, and the
document's data. -/
structure FChange where
  kind : ChangeKind
  docId : String
  data : Doc

/-- A `Reference.index` / `Reference.type` entry: either a literal name or a
resolver function of the snapshot batch and the optional parent document. -/
inductive NameSpec where
  | lit (s : String)
  | fn (f : List FChange → Option Doc → String)

/-- Resolution `typeof x === 'function' ? x.call(this, snap, parentSnap) : x` from
`FirestoreCollectionHandler.handleSnapshot`. -/
def resolveName (n : NameSpec) (batch : List FChange) (parent : Option Doc) : String :=
  match n with
  | .lit s => s
  | .fn f => f batch parent

/-- The parts of a `Reference` record (the replication descriptor) that the
replication logic reads. `builder`, `subBuilder` and `mappings` only shape
the Firestore query / index bootstrap and are not needed by any claim.
`include` is a Lean keyword, hence the trailing apostrophes. -/
structure Reference where
  collection : String
  index : NameSpec
  type : NameSpec
  subcollection : Option String := none
  include' : Option (List String) := none
  exclude' : Option (List String) := none
  filter : Option (Doc → Bool) := none
  transform : Option (Doc → Option Doc → Doc) := none

/-- The `shouldInsert` flag of `FirestoreCollectionHandler.filter`: the descriptor's
`filter` predicate when present, else `true`. -/
def passesFilter (r : Reference) (data : Doc) : Bool :=
  match r.filter with
  | some f => f data
  | none => true

/-- The `include` loop of `FirestoreCollectionHandler.filter`: when `include`
is set, delete every field whose key is not listed
(`if (include.indexOf(key) === -1) delete data[key]`). -/
def applyInclude (r : Reference) (data : Doc) : Doc :=
  match r.include' with
  | some inc => data.filter (fun kv => inc.contains kv.1)
  | none => data

/-- The `exclude` loop of `FirestoreCollectionHandler.filter`: when `exclude`
is set, delete every listed field whose current value is truthy
(`if (data[key]) delete data[key]`). -/
def applyExclude (r : Reference) (d1 : Doc) : Doc :=
  match r.exclude' with
  | some exc => d1.filter (fun kv => !(exc.contains kv.1 && truthy kv.2))
  | none => d1

/-- Function `FirestoreCollectionHandler.filter` (FirestoreHandler.ts:172-199):
apply the descriptor's `filter` predicate (suppress with `null` on false),
then the `include` loop, then the `exclude` loop. -/
def filterFn (r : Reference) (data : Doc) : Option Doc :=
  if passesFilter r data then
    some (applyExclude r (applyInclude r data))
  else
    none

/-- Whether the `include` step keeps field `k`. -/
def inclKeep (r : Reference) (k : String) : Bool :=
  match r.include' with
  | some inc => inc.contains k
  | none => true

/-- Whether the `exclude` step deletes field `k` holding value `v`
(only truthy values are deleted, after `if (data[key])`). -/
def exclDrop (r : Reference) (k : String) (v : JSVal) : Bool :=
  match r.exclude' with
  | some exc => exc.contains k && truthy v
  | none => false

/-- The record pipeline: `filter` projection followed by the optional
`transform(body, parentSnap)` (`handleAdded` / `handleModified` before any
sink call). -/
def pipelineOut (r : Reference) (parent : Option Doc) (data : Doc) : Option Doc :=
  match filterFn r data with
  | none => none
  | some body =>
    match r.transform with
    | some t => some (t body parent)
    | none => some body

/-- A mutating Elasticsearch call issued by the dispatcher. -/
inductive ESCall where
  | update (id index type : String) (doc : Doc) (docAsUpsert : Bool) (retryOnConflict : Nat)
  | indexDoc (id index type : String) (body : Doc)
  | deleteDoc (id index type : String)

/-- Behaviour of the Elasticsearch client as seen by one batch:
`existsAt` is the outcome of `client.exists` (`.error msg` models a thrown
exception), and `exec` returns `some msg` when the given mutating call
throws with message `msg`, `none` when it succeeds. -/
structure Sink where
  existsAt : String → String → String → Except String Bool
  exec : ESCall → Option String

/-- The `console.error` line of the catch block of each event handler,
exactly as formatted in the source. -/
def errLogFor (k : ChangeKind) (id msg : String) : String :=
  match k with
  | .added => "Error in `FS_ADDED` handler [doc@" ++ id ++ "]: " ++ msg
  | .modified => "Error in `FS_MODIFIED` handler [doc@" ++ id ++ "]: " ++ msg
  | .removed => "Error in `FS_REMOVE` handler [doc@" ++ id ++ "]: " ++ msg

/-- Outcome of one event handler: the mutating sink call it attempted (if
it got that far) and the error line it logged (if a sink call threw). The
handler itself never rethrows: the whole sink interaction sits in a
`try`/`catch` that only logs. -/
structure EventResult where
  call : Option ESCall
  logLine : Option String

/-- Handler `FirestoreCollectionHandler.handleAdded`: run the pipeline (stop when
suppressed), ask the sink whether the record exists, then either update
with `doc_as_upsert: true, retryOnConflict: 2` or index a fresh record;
any thrown sink error is caught and logged. -/
def runAdded (sink : Sink) (r : Reference) (parent : Option Doc)
    (index type id : String) (data : Doc) : EventResult :=
  match pipelineOut r parent data with
  | none => ⟨none, none⟩
  | some body =>
    match sink.existsAt id index type with
    | .error msg => ⟨none, some (errLogFor .added id msg)⟩
    | .ok true =>
      match sink.exec (ESCall.update id index type body true 2) with
      | some msg => ⟨some (ESCall.update id index type body true 2),
                     some (errLogFor .added id msg)⟩
      | none => ⟨some (ESCall.update id index type body true 2), none⟩
    | .ok false =>
      match sink.exec (ESCall.indexDoc id index type body) with
      | some msg => ⟨some (ESCall.indexDoc id index type body),
                     some (errLogFor .added id msg)⟩
      | none => ⟨some (ESCall.indexDoc id index type body), none⟩

/-- Handler `FirestoreCollectionHandler.handleModified`: run the pipeline (stop when
suppressed), then update `{doc: body}` (no `doc_as_upsert`) with
`retryOnConflict: 2`; a thrown sink error is caught and logged. -/
def runModified (sink : Sink) (r : Reference) (parent : Option Doc)
    (index type id : String) (data : Doc) : EventResult :=
  match pipelineOut r parent data with
  | none => ⟨none, none⟩
  | some body =>
    match sink.exec (ESCall.update id index type body false 2) with
    | some msg => ⟨some (ESCall.update id index type body false 2),
                   some (errLogFor .modified id msg)⟩
    | none => ⟨some (ESCall.update id index type body false 2), none⟩

/-- Handler `FirestoreCollectionHandler.handleRemoved`: delete by id; a thrown sink
error (including not-found) is caught and logged. -/
def runRemoved (sink : Sink) (index type id : String) : EventResult :=
  match sink.exec (ESCall.deleteDoc id index type) with
  | some msg => ⟨some (ESCall.deleteDoc id index type), some (errLogFor .removed id msg)⟩
  | none => ⟨some (ESCall.deleteDoc id index type), none⟩

/-- The per-change body of `FirestoreCollectionHandler.handleSnapshot`:
resolve `index` and `type` (through the descriptor's resolver functions when
they are not literals) and branch on the change kind. -/
def dispatch (sink : Sink) (r : Reference) (batch : List FChange)
    (parent : Option Doc) (c : FChange) : EventResult :=
  match c.kind with
  | .added => runAdded sink r parent (resolveName r.index batch parent)
      (resolveName r.type batch parent) c.docId c.data
  | .modified => runModified sink r parent (resolveName r.index batch parent)
      (resolveName r.type batch parent) c.docId c.data
  | .removed => runRemoved sink (resolveName r.index batch parent)
      (resolveName r.type batch parent) c.docId

/-- The loop `snap.docChanges().forEach(...)` in `handleSnapshot`: every change of the
batch is dispatched, independently of the outcomes of its siblings. -/
def processBatch (sink : Sink) (r : Reference) (parent : Option Doc)
    (batch : List FChange) : List EventResult :=
  batch.map (dispatch sink r batch parent)

/-- State of the subscription registry (`this.listeners` plus the history of
cancel invocations): `listeners` maps a parent document id to the handle of
the subscription opened for it, `cancelled` records every handle on which the
stored unsubscribe function was invoked, `nextHandle` supplies fresh handles. -/
structure RegistryState where
  listeners : List (String × Nat)
  cancelled : List Nat
  nextHandle : Nat
deriving DecidableEq

/-- One step of `FirestoreCollectionHandler.handleBindingSubcollection` for a
single parent change: on `added`, open a subcollection subscription and store
its handle under the parent id (overwriting a previous one); on `removed`,
`if (this.listeners[id]) this.listeners[id].call()` — invoke the cancel handle
when one is registered, leaving the map entry in place; `modified` does
nothing. -/
def onParentChange (s : RegistryState) (c : FChange) : RegistryState :=
  match c.kind with
  | .added =>
    { s with listeners := setAssoc s.listeners c.docId s.nextHandle,
             nextHandle := s.nextHandle + 1 }
  | .removed =>
    match s.listeners.lookup c.docId with
    | some h => { s with cancelled := s.cancelled ++ [h] }
    | none => s
  | .modified => s

/-- The whole `handleBindingSubcollection` callback over one snapshot batch. -/
def handleBindingSubcollection (s : RegistryState) (batch : List FChange) : RegistryState :=
  batch.foldl onParentChange s

/-- The exact validation error message of `SearchHandler.process`. -/
def validationMsg : String :=
  "Queries are required to have an `index`, `type` and either a `q`:string or `body`"

/-- The document `SearchHandler.respondError` writes under the response key:
`{ total: 0, error: message.toString() }` — and nothing else (no timestamp). -/
def errorResponse (msg : String) : JSVal :=
  .obj [("total", .num 0), ("error", .str msg)]

/-- The request-normalising prelude of `SearchHandler.process`:
`if (typeof request !== 'object') try { request = JSON.parse(request) } catch {}`.
`typeof null === 'object'`, so `null` skips the parse; a string is parsed
through the `parse` oracle (`none` models a thrown `JSON.parse`, which the
empty catch ignores, leaving the string in place); for the remaining
primitives `JSON.parse` of their string coercion either throws (ignored,
e.g. `undefined`) or returns an equal value (numbers, booleans). -/
def resolveRequest (parse : String → Option JSVal) (v : JSVal) : JSVal :=
  match v with
  | .obj fs => .obj fs
  | .null => .null
  | .str s =>
    match parse s with
    | some w => w
    | none => .str s
  | other => other

/-- What `SearchHandler.process` does with a request record: either
`respondError` writes an error document, or `client.search` is invoked with
the validated request. -/
inductive ProcOutcome where
  | wroteError (response : JSVal)
  | searched (request : JSVal)

/-- Whether JavaScript property access on the value throws (`null` and
`undefined` are the only such values). -/
def isNullish (v : JSVal) : Bool :=
  match v with
  | .null => true
  | .undefined => true
  | _ => false

/-- Function `SearchHandler.process` after reading `snap.data()[reqKey]` (`reqVal`):
normalise the request, then
`if (!request.index || !request.type || (!request.q && !request.body))` write
the validation error, else run the search. Property access on `null` or
`undefined` throws a `TypeError`, modelled as `.error`; on any other value
every access is total, so hoisting the four accesses preserves both the
result and the crash behaviour of the short-circuited original. -/
def processReq (parse : String → Option JSVal) (reqVal : JSVal) : Except String ProcOutcome :=
  if isNullish (resolveRequest parse reqVal) then
    .error "TypeError"
  else if !truthy (propOf (resolveRequest parse reqVal) "index") ||
      !truthy (propOf (resolveRequest parse reqVal) "type") ||
      (!truthy (propOf (resolveRequest parse reqVal) "q") &&
        !truthy (propOf (resolveRequest parse reqVal) "body")) then
    .ok (.wroteError (errorResponse validationMsg))
  else
    .ok (.searched (resolveRequest parse reqVal))

/-- One change of the control-collection snapshot: its kind, the record id,
and the value of the record's request field (`undefined` when absent). -/
structure SHChange where
  kind : ChangeKind
  docId : String
  request : JSVal

/-- Handler `SearchHandler.handleSnapshot`: `snap.docChanges().forEach`, processing a
change only `if (type === "added")`; modified/removed changes produce
nothing. -/
def shHandleSnapshot (parse : String → Option JSVal) (changes : List SHChange) :
    List (Except String ProcOutcome) :=
  changes.filterMap (fun c =>
    match c.kind with
    | .added => some (processReq parse c.request)
    | _ => none)

/-- The property key a hit is stored under: `temp[hit._id] = hit`. -/
def hitKey (h : JSVal) : String :=
  jsKeyOfVal (propOf h "_id")

/-- The re-keying loop of `SearchHandler.respond`:
`for (const hit of hits) temp[hit._id] = hit`, starting from `temp = {}`.
A `null`/`undefined` hit would make `hit._id` throw. -/
def rekeyStep (acc : List (String × JSVal)) (hit : JSVal) :
    Except String (List (String × JSVal)) :=
  if isNullish hit then .error "TypeError"
  else .ok (setAssoc acc (hitKey hit) hit)

/-- The fold `for (const hit of hits) temp[hit._id] = hit` over `rekeyStep`,
starting from `temp = {}`. -/
def rekeyHits (hits : List JSVal) : Except String (List (String × JSVal)) :=
  hits.foldlM rekeyStep []

/-- The fields of an Elasticsearch search response that
`SearchHandler.respond` reads: `response.error` and, when both `response.hits`
and `response.hits.hits` are present, the hit array. -/
structure ESResponse where
  error : Option String
  hitsHits : Option (List JSVal)

/-- What `SearchHandler.respond`/`send` write back to the record. -/
inductive WriteAction where
  | errResp (doc : JSVal)
  | success (hitsMap : Option (List (String × JSVal))) (timestamp : Int)

/-- Function `SearchHandler.respond` followed by `send`: a truthy `response.error`
goes through `respondError`; otherwise the hit array (when present) is
re-keyed into a map by hit id, and `send` attaches `timestamp = new Date()`
(`now`) to the response before writing it. -/
def respond (now : Int) (resp : ESResponse) : Except String WriteAction :=
  match resp.error with
  | some e => .ok (.errResp (errorResponse e))
  | none =>
    match resp.hitsHits with
    | some hits =>
      match rekeyHits hits with
      | .ok m => .ok (.success (some m) now)
      | .error msg => .error msg
    | none => .ok (.success none now)

/-- A record of the control collection as the cleanup sweep sees it: its id
and the value of its response field (`none` when the field was never set). -/
structure CRecord where
  rid : String
  response : Option JSVal

/-- The selection predicate of `SearchHandler.cleanup`:
`orderBy(resKey.timestamp).endAt(new Date(now - cleanupInterval))`.
Firestore's `orderBy` only returns documents that have the ordered field, and
`endAt` on a date bound keeps those whose timestamp is at or before the
cutoff; the timestamps this system writes are `Date` values. -/
def hasOldTimestamp (cutoff : Int) (r : CRecord) : Bool :=
  match r.response with
  | none => false
  | some d =>
    match lookupJS d "timestamp" with
    | some (.date t) => decide (t ≤ cutoff)
    | _ => false

/-- One cleanup sweep at time `now`: the selected records are deleted
(first component), every other record is retained (second component). -/
def cleanupRun (now interval : Int) (records : List CRecord) :
    List CRecord × List CRecord :=
  (records.filter (hasOldTimestamp (now - interval)),
   records.filter (fun r => !hasOldTimestamp (now - interval) r))

/-- The per-entry survival predicate the two projection loops implement. -/
def projKeeps (r : Reference) (kv : String × JSVal) : Bool :=
  inclKeep r kv.1 && !exclDrop r kv.1 kv.2

theorem applyInclude_eq (r : Reference) (d : Doc) :
    applyInclude r d = d.filter (fun kv => inclKeep r kv.1) := by
  cases hI : r.include' with
  | none => simp [applyInclude, inclKeep, hI]
  | some inc => simp [applyInclude, inclKeep, hI]

theorem applyExclude_eq (r : Reference) (d : Doc) :
    applyExclude r d = d.filter (fun kv => !exclDrop r kv.1 kv.2) := by
  cases hE : r.exclude' with
  | none => simp [applyExclude, exclDrop, hE]
  | some exc => simp [applyExclude, exclDrop, hE]

theorem filterFn_eq_filter (r : Reference) (d : Doc) (hf : passesFilter r d = true) :
    filterFn r d = some (d.filter (fun kv => projKeeps r kv)) := by
  unfold filterFn
  rw [if_pos hf, applyInclude_eq, applyExclude_eq, List.filter_filter]
  refine congrArg some (List.filter_congr ?_)
  intro kv _
  simp [projKeeps, Bool.and_comm]

theorem lookup_eq_none_of_not_mem {α : Type} (l : List (String × α)) (k : String)
    (h : k ∉ l.map Prod.fst) : l.lookup k = none := by
  induction l with
  | nil => rfl
  | cons a tl ih =>
    obtain ⟨k₁, v₁⟩ := a
    simp only [List.map_cons, List.mem_cons] at h
    push_neg at h
    have hne : (k == k₁) = false := by simp [h.1]
    simp [List.lookup, hne, ih h.2]

theorem lookup_isSome_iff {α : Type} (l : List (String × α)) (k : String) :
    (l.lookup k).isSome = true ↔ k ∈ l.map Prod.fst := by
  induction l with
  | nil => simp [List.lookup]
  | cons a tl ih =>
    obtain ⟨k₁, v₁⟩ := a
    cases hk : (k == k₁) with
    | true =>
      have : k = k₁ := by simpa using hk
      simp [List.lookup, hk, this]
    | false =>
      have : ¬ k = k₁ := by simpa using hk
      simp [List.lookup, hk, ih, this]

theorem lookup_filter (p : String × JSVal → Bool) (d : Doc)
    (hnd : (d.map Prod.fst).Nodup) (k : String) :
    (d.filter p).lookup k = (d.lookup k).bind (fun v => if p (k, v) then some v else none) := by
  induction d with
  | nil => rfl
  | cons a tl ih =>
    obtain ⟨k₁, v₁⟩ := a
    simp only [List.map_cons, List.nodup_cons] at hnd
    obtain ⟨hk₁, hnd'⟩ := hnd
    cases hk : (k == k₁) with
    | true =>
      have hkk : k = k₁ := by simpa using hk
      subst hkk
      cases hp : p (k, v₁) with
      | true => simp [List.filter_cons, hp, List.lookup]
      | false =>
        have hnotin : k ∉ (tl.filter p).map Prod.fst := by
          intro hmem
          exact hk₁ (((List.filter_sublist tl).map Prod.fst).subset hmem)
        simp [List.filter_cons, hp, List.lookup,
          lookup_eq_none_of_not_mem _ _ hnotin]
    | false =>
      have hkk : ¬ k = k₁ := by simpa using hk
      cases hp : p (k₁, v₁) with
      | true => simp [List.filter_cons, hp, List.lookup, hk, ih hnd']
      | false => simp [List.filter_cons, hp, List.lookup, hk, ih hnd']

/-- The projection contract that `FirestoreCollectionHandler.filter` actually
realises on a document with distinct field names: a field of the output is a
field of the input that the include list keeps and that the exclude step does
not drop — and the exclude step only drops a listed field whose value is
truthy. -/
def projectionSpec (r : Reference) (d d' : Doc) : Prop :=
  (∀ k, k ∈ d'.map Prod.fst ↔
    ∃ v, d.lookup k = some v ∧ inclKeep r k = true ∧ exclDrop r k v = false) ∧
  (∀ k v, d.lookup k = some v →
    d'.lookup k = if inclKeep r k && !exclDrop r k v then some v else none)

/-- Concrete input refuting claim C1: a descriptor excluding field `flag`
and a document storing the falsy value `0` under `flag`. -/
def cex1Ref : Reference :=
  { collection := "c", index := .lit "i", type := .lit "t", exclude' := some ["flag"] }

/-- The document `{flag: 0}` for the C1 counterexample. -/
def cex1Doc : Doc := [("flag", .num 0)]

/-- C1 is false as stated: with `exclude = ["flag"]`, no `include` and no
`filter`, the document `{flag: 0}` passes the pipeline with `flag` still
present, because the exclude loop only deletes a field whose value is truthy
(`if (data[key]) delete data[key]`), and `0` is falsy — the claimed output
field set `keys(d) minus exclude` would be empty. -/
theorem C1_counterexample :
    filterFn cex1Ref cex1Doc = some [("flag", JSVal.num 0)] ∧
    cex1Ref.exclude' = some ["flag"] ∧ cex1Ref.include' = none ∧
    cex1Ref.filter = none :=
  ⟨rfl, rfl, rfl, rfl⟩

/-- C1 (amended): for every descriptor and every document `d` with distinct
field names whose `filter` (if present) returns true, the projected output
has exactly the field set `(include ∩ keys(d))` minus those excluded fields
whose stored values are truthy (an excluded field holding a falsy value is
retained), and the output is permutation-invariant in the order of the fields
of `d`. -/
theorem C1_projection_amended (r : Reference) (d : Doc)
    (hnd : (d.map Prod.fst).Nodup) (hf : passesFilter r d = true) :
    ∃ d', filterFn r d = some d' ∧ projectionSpec r d d' ∧
      ∀ d₂, List.Perm d d₂ → passesFilter r d₂ = true →
        ∃ d₂', filterFn r d₂ = some d₂' ∧ List.Perm d' d₂' := by
  refine ⟨d.filter (fun kv => projKeeps r kv), filterFn_eq_filter r d hf, ⟨?_, ?_⟩, ?_⟩
  · intro k
    rw [← lookup_isSome_iff, lookup_filter _ d hnd k]
    cases hl : d.lookup k with
    | none => simp
    | some v =>
      cases hp : projKeeps r (k, v) with
      | true =>
        have hp' : inclKeep r k = true ∧ exclDrop r k v = false := by
          simpa [projKeeps] using hp
        simp only [Option.some_bind, hp, if_true, Option.isSome_some, true_iff]
        exact ⟨v, rfl, hp'.1, hp'.2⟩
      | false =>
        simp only [Option.some_bind, hp, Bool.false_eq_true, if_false,
          Option.isSome_none, false_iff]
        rintro ⟨v', hv', hIK, hED⟩
        obtain rfl : v = v' := by simpa using hv'
        have : projKeeps r (k, v) = true := by simp [projKeeps, hIK, hED]
        rw [hp] at this
        exact Bool.false_ne_true this
  · intro k v hl
    rw [lookup_filter _ d hnd k, hl]
    rfl
  · intro d₂ hperm hf₂
    exact ⟨d₂.filter (fun kv => projKeeps r kv), filterFn_eq_filter r d₂ hf₂,
      hperm.filter _⟩

/-- Descriptor for the C1 witness: include `a` and `b`, exclude `b`. -/
def w1Ref : Reference :=
  { collection := "c", index := .lit "i", type := .lit "t",
    include' := some ["a", "b"], exclude' := some ["b"] }

/-- Document for the C1 witness. -/
def w1Doc : Doc := [("a", .str "x"), ("b", .str "y"), ("c", .num 1)]

/-- Witness instantiating C1 (amended) at a concrete descriptor and document. -/
theorem C1_projection_amended_witness :
    ∃ d', filterFn w1Ref w1Doc = some d' ∧ projectionSpec w1Ref w1Doc d' ∧
      ∀ d₂, List.Perm w1Doc d₂ → passesFilter w1Ref d₂ = true →
        ∃ d₂', filterFn w1Ref d₂ = some d₂' ∧ List.Perm d' d₂' :=
  C1_projection_amended w1Ref w1Doc (by decide) rfl

/-- Registry state for the C2 counterexample: one live subscription for
parent `p1`, held under handle `0`. -/
def cex2State : RegistryState := ⟨[("p1", 0)], [], 1⟩

/-- The Removed parent event for the C2 counterexample. -/
def cex2Change : FChange := ⟨.removed, "p1", []⟩

/-- C2 is false as stated: handling a Removed event for a registered parent
invokes the cancel handle (handle `0` is cancelled) but the entry is NOT
removed from the registry's map — `handleBindingSubcollection` only does
`this.listeners[id].call()` and never deletes `this.listeners[id]`. -/
theorem C2_counterexample :
    (onParentChange cex2State cex2Change).cancelled = [0] ∧
    (onParentChange cex2State cex2Change).listeners = [("p1", 0)] :=
  ⟨rfl, rfl⟩

/-- C2 (amended): on a parent Removed event, if a subscription is registered
under that parent id its cancel handle is invoked while the map entry stays
in place (only `cancelled` grows); if none is registered the event is a
complete no-op — no error, no state change, no subscription created. -/
theorem C2_removed_behavior (s : RegistryState) (c : FChange)
    (hk : c.kind = ChangeKind.removed) :
    (∀ h, s.listeners.lookup c.docId = some h →
      onParentChange s c = { s with cancelled := s.cancelled ++ [h] }) ∧
    (s.listeners.lookup c.docId = none → onParentChange s c = s) := by
  constructor
  · intro h hl
    simp [onParentChange, hk, hl]
  · intro hl
    simp [onParentChange, hk, hl]

/-- Registry state for the C2 witness. -/
def w2State : RegistryState := ⟨[("p2", 5)], [], 6⟩

/-- Witness instantiating C2 (amended): a registered parent `p2` and an
unknown parent `q`. -/
theorem C2_removed_behavior_witness :
    onParentChange w2State ⟨.removed, "p2", []⟩ = { w2State with cancelled := [5] } ∧
    onParentChange w2State ⟨.removed, "q", []⟩ = w2State :=
  ⟨(C2_removed_behavior w2State ⟨.removed, "p2", []⟩ rfl).1 5 rfl,
   (C2_removed_behavior w2State ⟨.removed, "q", []⟩ rfl).2 rfl⟩

/-- C3: on an Added event whose document passes the record pipeline, the
handler updates with `doc_as_upsert: true` and `retryOnConflict: 2` when the
record already exists at `(index, type, id)` — never a plain create — and
issues a fresh index call carrying the pipeline output when it does not. -/
theorem C3_added_upsert (sink : Sink) (r : Reference) (parent : Option Doc)
    (index type id : String) (data body : Doc) (b : Bool)
    (hp : pipelineOut r parent data = some body)
    (he : sink.existsAt id index type = Except.ok b) :
    (runAdded sink r parent index type id data).call =
      some (if b then ESCall.update id index type body true 2
            else ESCall.indexDoc id index type body) := by
  unfold runAdded
  rw [hp, he]
  cases b with
  | true =>
    cases hx : sink.exec (ESCall.update id index type body true 2) <;> simp [hx]
  | false =>
    cases hx : sink.exec (ESCall.indexDoc id index type body) <;> simp [hx]

/-- A sink where everything exists and every call succeeds. -/
def w3Sink : Sink := ⟨fun _ _ _ => .ok true, fun _ => none⟩

/-- A sink where nothing exists and every call succeeds. -/
def w3SinkAbsent : Sink := ⟨fun _ _ _ => .ok false, fun _ => none⟩

/-- A descriptor with no filter, projection or transform. -/
def w3Ref : Reference := { collection := "c", index := .lit "i", type := .lit "t" }

/-- Witness instantiating C3 on both branches: an existing record receives
the upsert update, an absent one the fresh index call. -/
theorem C3_added_upsert_witness :
    (runAdded w3Sink w3Ref none "i" "t" "d1" [("a", .num 1)]).call =
      some (if true then ESCall.update "d1" "i" "t" [("a", .num 1)] true 2
            else ESCall.indexDoc "d1" "i" "t" [("a", .num 1)]) ∧
    (runAdded w3SinkAbsent w3Ref none "i" "t" "d1" [("a", .num 1)]).call =
      some (if false then ESCall.update "d1" "i" "t" [("a", .num 1)] true 2
            else ESCall.indexDoc "d1" "i" "t" [("a", .num 1)]) :=
  ⟨C3_added_upsert w3Sink w3Ref none "i" "t" "d1" [("a", .num 1)] [("a", .num 1)] true rfl rfl,
   C3_added_upsert w3SinkAbsent w3Ref none "i" "t" "d1" [("a", .num 1)] [("a", .num 1)] false rfl rfl⟩

theorem runAdded_log (sink : Sink) (r : Reference) (parent : Option Doc)
    (index type id : String) (data : Doc) (l : String)
    (hl : (runAdded sink r parent index type id data).logLine = some l) :
    ∃ msg, l = errLogFor .added id msg := by
  unfold runAdded at hl
  split at hl
  · simp at hl
  · split at hl
    · exact ⟨_, by simpa using hl.symm⟩
    · split at hl
      · exact ⟨_, by simpa using hl.symm⟩
      · simp at hl
    · split at hl
      · exact ⟨_, by simpa using hl.symm⟩
      · simp at hl

theorem runModified_log (sink : Sink) (r : Reference) (parent : Option Doc)
    (index type id : String) (data : Doc) (l : String)
    (hl : (runModified sink r parent index type id data).logLine = some l) :
    ∃ msg, l = errLogFor .modified id msg := by
  unfold runModified at hl
  split at hl
  · simp at hl
  · split at hl
    · exact ⟨_, by simpa using hl.symm⟩
    · simp at hl

theorem runRemoved_log (sink : Sink) (index type id : String) (l : String)
    (hl : (runRemoved sink index type id).logLine = some l) :
    ∃ msg, l = errLogFor .removed id msg := by
  unfold runRemoved at hl
  split at hl
  · exact ⟨_, by simpa using hl.symm⟩
  · simp at hl

/-- C4: a sink failure while handling one event is caught inside that event's
handler and surfaces only as a log line carrying the event kind tag and the
document id; the batch is still processed in full (one result per event,
each depending only on its own change), so no failure aborts the siblings or
the subscription callback. -/
theorem C4_error_containment (sink : Sink) (r : Reference) (parent : Option Doc)
    (batch : List FChange) (c : FChange) (l : String)
    (hc : c ∈ batch)
    (hl : (dispatch sink r batch parent c).logLine = some l) :
    (processBatch sink r parent batch).length = batch.length ∧
    processBatch sink r parent batch = batch.map (dispatch sink r batch parent) ∧
    ∃ msg, l = errLogFor c.kind c.docId msg := by
  refine ⟨by simp [processBatch], rfl, ?_⟩
  revert hl
  unfold dispatch
  cases hk : c.kind with
  | added =>
    intro hl
    exact runAdded_log sink r parent _ _ c.docId c.data l hl
  | modified =>
    intro hl
    exact runModified_log sink r parent _ _ c.docId c.data l hl
  | removed =>
    intro hl
    exact runRemoved_log sink _ _ c.docId l hl

/-- A sink that always throws `"boom"`. -/
def w4Sink : Sink := ⟨fun _ _ _ => .error "boom", fun _ => some "boom"⟩

/-- The failing batch for the C4 witness. -/
def w4Batch : List FChange := [⟨.added, "d1", [("a", .num 1)]⟩, ⟨.removed, "d2", []⟩]

/-- Witness instantiating C4: with a sink that throws on every call, both
events of the batch still produce a result, and the first event's log line
has the `FS_ADDED` format with its document id. -/
theorem C4_error_containment_witness :
    (processBatch w4Sink w3Ref none w4Batch).length = w4Batch.length ∧
    processBatch w4Sink w3Ref none w4Batch = w4Batch.map (dispatch w4Sink w3Ref w4Batch none) ∧
    ∃ msg, "Error in `FS_ADDED` handler [doc@d1]: boom" =
      errLogFor (FChange.mk .added "d1" [("a", .num 1)]).kind
        (FChange.mk .added "d1" [("a", .num 1)]).docId msg :=
  C4_error_containment w4Sink w3Ref none w4Batch ⟨.added, "d1", [("a", .num 1)]⟩
    "Error in `FS_ADDED` handler [doc@d1]: boom" (List.mem_cons_self _ _) rfl

/-- C5: a structured request missing `index`, missing `type`, or carrying
neither `q` nor `body` triggers no search — the handler immediately writes
back exactly `{ total: 0, error: <the validation message> }`. -/
theorem C5_validation_error (parse : String → Option JSVal)
    (fields : List (String × JSVal))
    (h : fields.lookup "index" = none ∨ fields.lookup "type" = none ∨
      (fields.lookup "q" = none ∧ fields.lookup "body" = none)) :
    processReq parse (.obj fields) =
      .ok (.wroteError (errorResponse validationMsg)) := by
  have hres : resolveRequest parse (.obj fields) = .obj fields := rfl
  rcases h with h | h | ⟨hq, hb⟩
  · simp [processReq, hres, isNullish, propOf, lookupJS, truthy, h]
  · simp [processReq, hres, isNullish, propOf, lookupJS, truthy, h]
  · simp [processReq, hres, isNullish, propOf, lookupJS, truthy, hq, hb]

/-- Witness instantiating C5 at the spec's example `{type: "emails"}`. -/
theorem C5_validation_error_witness :
    processReq (fun _ => none) (.obj [("type", .str "emails")]) =
      .ok (.wroteError (errorResponse validationMsg)) :=
  C5_validation_error (fun _ => none) [("type", .str "emails")] (Or.inl rfl)

/-- Whether an `Except` models a non-throwing computation. -/
def exceptOk {α : Type} (e : Except String α) : Bool :=
  match e with
  | .ok _ => true
  | .error _ => false

/-- C7 is false as stated: when the control record has no request field at
all, `snap.data()[this.reqKey]` is `undefined`, `typeof undefined !==
'object'` sends it through `JSON.parse`, which throws and is ignored, and
then `request.index` throws a TypeError out of `process` — the handler
crashes rather than writing an error response. -/
theorem C7_counterexample :
    processReq (fun _ => none) JSVal.undefined = Except.error "TypeError" := rfl

/-- C7 (amended): processing a control record never throws provided the
request value left after the parse step is neither `null` nor `undefined`
(an absent or null request field crashes the handler); in particular a
string that fails to parse is handled by writing the invalid-request error
response, not by crashing. -/
theorem C7_no_crash (parse : String → Option JSVal) (v : JSVal) :
    (exceptOk (processReq parse v) = true ↔
      isNullish (resolveRequest parse v) = false) ∧
    (∀ s, v = JSVal.str s → parse s = none →
      processReq parse v = .ok (.wroteError (errorResponse validationMsg))) := by
  constructor
  · unfold processReq
    cases hN : isNullish (resolveRequest parse v) with
    | true => simp [exceptOk]
    | false =>
      simp only [Bool.false_eq_true, if_false]
      constructor
      · intro _; trivial
      · intro _
        split <;> rfl
  · rintro s rfl hps
    have hres : resolveRequest parse (JSVal.str s) = JSVal.str s := by
      simp [resolveRequest, hps]
    simp [processReq, hres, isNullish, propOf, lookupJS, truthy]

/-- Witness instantiating C7 (amended): an unparseable string request gets
the validation error response, and a structured request does not throw. -/
theorem C7_no_crash_witness :
    processReq (fun _ => none) (JSVal.str "not json") =
      .ok (.wroteError (errorResponse validationMsg)) :=
  (C7_no_crash (fun _ => none) (JSVal.str "not json")).2 "not json" rfl rfl

theorem any_key_eq_false {α : Type} (m : List (String × α)) (k : String)
    (h : k ∉ m.map Prod.fst) : (m.any (fun kv => kv.1 == k)) = false := by
  rw [List.any_eq_false]
  intro kv hkv hbeq
  exact h (eq_of_beq hbeq ▸ List.mem_map_of_mem Prod.fst hkv)

theorem setAssoc_of_fresh {α : Type} (m : List (String × α)) (k : String) (v : α)
    (h : k ∉ m.map Prod.fst) : setAssoc m k v = m ++ [(k, v)] := by
  simp [setAssoc, any_key_eq_false m k h]

theorem rekeyFold_eq (hits : List JSVal) (acc : List (String × JSVal))
    (hsafe : ∀ h ∈ hits, isNullish h = false)
    (hfresh : ∀ h ∈ hits, hitKey h ∉ acc.map Prod.fst)
    (hnd : (hits.map hitKey).Nodup) :
    hits.foldlM rekeyStep acc =
      Except.ok (acc ++ hits.map (fun x => (hitKey x, x))) := by
  induction hits generalizing acc with
  | nil =>
    show pure acc = Except.ok (acc ++ List.map (fun x => (hitKey x, x)) [])
    rw [List.map_nil, List.append_nil]
    rfl
  | cons x xs ih =>
    have hx : isNullish x = false := hsafe x (List.mem_cons_self _ _)
    have hxf : hitKey x ∉ acc.map Prod.fst := hfresh x (List.mem_cons_self _ _)
    have hstep : rekeyStep acc x = .ok (acc ++ [(hitKey x, x)]) := by
      simp [rekeyStep, hx, setAssoc_of_fresh acc (hitKey x) x hxf]
    simp only [List.map_cons, List.nodup_cons] at hnd
    rw [List.foldlM_cons, hstep]
    have ihres := ih (acc ++ [(hitKey x, x)])
      (fun h hm => hsafe h (List.mem_cons_of_mem _ hm))
      (fun h hm => by
        simp only [List.map_append, List.mem_append, List.map_cons, List.map_nil,
          List.mem_singleton, not_or]
        exact ⟨hfresh h (List.mem_cons_of_mem _ hm),
          fun hEq => hnd.1 (hEq ▸ List.mem_map_of_mem hitKey hm)⟩)
      hnd.2
    have hbind : (Except.ok (acc ++ [(hitKey x, x)]) >>=
        fun b => xs.foldlM rekeyStep b) = xs.foldlM rekeyStep (acc ++ [(hitKey x, x)]) := rfl
    rw [hbind, ihres]
    simp

theorem lookup_rekeyed_map (hits : List JSVal) (hnd : (hits.map hitKey).Nodup)
    (h : JSVal) (hmem : h ∈ hits) :
    (hits.map (fun x => (hitKey x, x))).lookup (hitKey h) = some h := by
  induction hits with
  | nil => cases hmem
  | cons x xs ih =>
    simp only [List.map_cons, List.nodup_cons] at hnd
    rcases List.mem_cons.mp hmem with rfl | hmem'
    · simp [List.lookup]
    · have hne : (hitKey h == hitKey x) = false := by
        have hneq : hitKey h ≠ hitKey x := by
          intro hEq
          exact hnd.1 (hEq ▸ List.mem_map_of_mem hitKey hmem')
        simpa using hneq
      simp [List.lookup, hne, ih hnd.2 hmem']

/-- C6: on a successful search result carrying a hit list (no two hits
sharing an id, and each hit an actual object so that `hit._id` does not
throw), the written response contains the hits re-keyed from the ordered
sequence into a mapping from each hit's id to that very hit, together with
the `timestamp` attached by `send`. -/
theorem C6_rekeyed_response (now : Int) (resp : ESResponse) (hits : List JSVal)
    (he : resp.error = none) (hh : resp.hitsHits = some hits)
    (hsafe : ∀ h ∈ hits, isNullish h = false)
    (hnd : (hits.map hitKey).Nodup) :
    ∃ m, respond now resp = .ok (.success (some m) now) ∧
      ∀ h ∈ hits, m.lookup (hitKey h) = some h := by
  have hrk : rekeyHits hits = .ok (hits.map (fun x => (hitKey x, x))) := by
    have := rekeyFold_eq hits [] hsafe (by simp) hnd
    simpa [rekeyHits] using this
  refine ⟨hits.map (fun x => (hitKey x, x)), ?_, ?_⟩
  · unfold respond
    rw [he, hh]
    dsimp only
    rw [hrk]
  · intro h hm
    exact lookup_rekeyed_map hits hnd h hm

/-- Two hits with distinct ids for the C6 witness. -/
def w6Hits : List JSVal :=
  [.obj [("_id", .str "h1"), ("v", .num 1)], .obj [("_id", .str "h2"), ("v", .num 2)]]

/-- A successful search response carrying `w6Hits`. -/
def w6Resp : ESResponse := ⟨none, some w6Hits⟩

/-- Witness instantiating C6 at a concrete two-hit response. -/
theorem C6_rekeyed_response_witness :
    ∃ m, respond 42 w6Resp = .ok (.success (some m) 42) ∧
      ∀ h ∈ w6Hits, m.lookup (hitKey h) = some h :=
  C6_rekeyed_response 42 w6Resp w6Hits rfl rfl
    (by
      intro h hm
      simp only [w6Hits, List.mem_cons, List.not_mem_nil, or_false] at hm
      rcases hm with rfl | rfl <;> rfl)
    (by decide)

/-- C8: on a sweep at time `now`, a control record whose response timestamp
is older than `now - interval` is among the deleted records, and one whose
timestamp is newer than that bound is retained and not deleted. -/
theorem C8_cleanup_sweep (now interval t : Int) (records : List CRecord)
    (r : CRecord) (d : JSVal)
    (hr : r ∈ records) (hresp : r.response = some d)
    (ht : lookupJS d "timestamp" = some (.date t)) :
    (t < now - interval → r ∈ (cleanupRun now interval records).1) ∧
    (now - interval < t →
      r ∈ (cleanupRun now interval records).2 ∧
      r ∉ (cleanupRun now interval records).1) := by
  have hOld : hasOldTimestamp (now - interval) r = decide (t ≤ now - interval) := by
    simp [hasOldTimestamp, hresp, ht]
  constructor
  · intro hlt
    have hT : hasOldTimestamp (now - interval) r = true := by
      rw [hOld]
      exact decide_eq_true (le_of_lt hlt)
    exact List.mem_filter.mpr ⟨hr, hT⟩
  · intro hgt
    have hF : hasOldTimestamp (now - interval) r = false := by
      rw [hOld]
      simp only [decide_eq_false_iff_not]
      exact not_le.mpr hgt
    constructor
    · refine List.mem_filter.mpr ⟨hr, ?_⟩
      simp [hF]
    · intro hmem
      have h2 := (List.mem_filter.mp hmem).2
      rw [hF] at h2
      exact Bool.false_ne_true h2

/-- An old control record (timestamp 0) for the C8 witness. -/
def w8Old : CRecord := ⟨"old", some (.obj [("timestamp", .date 0)])⟩

/-- A fresh control record (timestamp 100) for the C8 witness. -/
def w8New : CRecord := ⟨"new", some (.obj [("timestamp", .date 100)])⟩

/-- Both C8 witness records. -/
def w8Records : List CRecord := [w8Old, w8New]

/-- Witness instantiating C8 at a sweep at time 100 with retention 50:
the record from time 0 is deleted, the one from time 100 is retained. -/
theorem C8_cleanup_sweep_witness :
    w8Old ∈ (cleanupRun 100 50 w8Records).1 ∧
    w8New ∈ (cleanupRun 100 50 w8Records).2 ∧
    w8New ∉ (cleanupRun 100 50 w8Records).1 :=
  ⟨(C8_cleanup_sweep 100 50 0 w8Records w8Old (.obj [("timestamp", .date 0)])
      (List.mem_cons_self _ _) rfl rfl).1 (by decide),
   (C8_cleanup_sweep 100 50 100 w8Records w8New (.obj [("timestamp", .date 100)])
      (List.mem_cons_of_mem _ (List.mem_cons_self _ _)) rfl rfl).2 (by decide)⟩

/-- C9: an error response written by `respondError` is exactly
`{total: 0, error}` with no `timestamp` field, and since the cleanup query
orders on `response.timestamp` (so only records having that field are
returned), a record holding only an error response is never selected for
deletion by any sweep, however old it is. -/
theorem C9_error_response_never_swept (msg : String) (now interval : Int)
    (records : List CRecord) (r : CRecord)
    (hresp : r.response = some (errorResponse msg)) :
    lookupJS (errorResponse msg) "timestamp" = none ∧
    r ∉ (cleanupRun now interval records).1 := by
  have hts : lookupJS (errorResponse msg) "timestamp" = none := rfl
  refine ⟨hts, ?_⟩
  intro hmem
  have h2 := (List.mem_filter.mp hmem).2
  simp [hasOldTimestamp, hresp, hts] at h2

/-- Witness instantiating C9: a record carrying only an error response
survives a sweep arbitrarily far in the future. -/
theorem C9_error_response_never_swept_witness :
    lookupJS (errorResponse "oops") "timestamp" = none ∧
    CRecord.mk "r1" (some (errorResponse "oops")) ∉
      (cleanupRun 1000000 1 [CRecord.mk "r1" (some (errorResponse "oops"))]).1 :=
  C9_error_response_never_swept "oops" 1000000 1
    [CRecord.mk "r1" (some (errorResponse "oops"))]
    (CRecord.mk "r1" (some (errorResponse "oops"))) rfl

/-- C10: `SearchHandler.handleSnapshot` acts only on Added changes — the
batch result equals the result on the Added sub-batch, and a lone Modified
or Removed change produces nothing: no request processed, no search, no
response written. -/
theorem C10_added_only (parse : String → Option JSVal) (changes : List SHChange)
    (c : SHChange) (hk : c.kind ≠ ChangeKind.added) :
    shHandleSnapshot parse changes =
      shHandleSnapshot parse (changes.filter (fun x => x.kind == ChangeKind.added)) ∧
    shHandleSnapshot parse [c] = [] := by
  constructor
  · induction changes with
    | nil => rfl
    | cons x xs ih =>
      cases hx : x.kind <;>
        simp [shHandleSnapshot, List.filterMap_cons, List.filter_cons, hx] <;>
        simpa [shHandleSnapshot] using ih
  · cases hck : c.kind with
    | added => exact absurd hck hk
    | modified => simp [shHandleSnapshot, hck]
    | removed => simp [shHandleSnapshot, hck]

/-- Witness instantiating C10 at a concrete Modified change. -/
theorem C10_added_only_witness :
    shHandleSnapshot (fun _ => none) [⟨ChangeKind.modified, "r1", JSVal.obj []⟩] = [] :=
  (C10_added_only (fun _ => none) [⟨ChangeKind.modified, "r1", JSVal.obj []⟩]
    ⟨ChangeKind.modified, "r1", JSVal.obj []⟩ (by decide)).2
